import Mathlib

/-!
Shallow embedding of the `amas` workspace-graph application.

Each definition mirrors one Rust item of the repository:
* `File`, `WorkspaceGraph` — `src/file/file.rs`, `src/workspace_graph/workspace_graph.rs`
* the feeder (`first_pass`, `second_pass`, `feed_workspace_graph_with_ts_project`) —
  `src/workspace_graph/feeder/typescript.rs`
* the import visitor (`Expression`, `Statement`, `collect_imports_*`) — the `ImportVisitor`
  of the same file (its mutually recursive `visit_*` methods are fused into one
  structural recursion over the AST)
* the relative-import resolver (`resolve_import_path` and friends) — also that file
* `ViewState` and the zoom / pinch handling — `src/workspace_layout/view_state.rs`
  and `src/workspace_layout/view.rs` (f64 state modelled exactly over `ℚ`)
* the force-directed layout — `src/workspace_layout/calculate_positions.rs`
  (f64 modelled over `ℝ`).

Filesystem interaction (directory walking, `canonicalize`, file existence) and the
oxc parser are oracles passed as function parameters; everything downstream of them
is translated statement by statement from the source.
-/

/-- `File` struct (`src/file/file.rs`): a node payload carrying the file name. -/
structure File where
  name : String
deriving DecidableEq, Repr

/-- `WorkspaceGraph` (`src/workspace_graph/workspace_graph.rs`): an undirected
petgraph `Graph<File, f64>`.  Nodes are listed in insertion order, so the petgraph
`NodeIndex` of a node is its list index; edges keep their endpoint pair in insertion
order (the `1.0` weight is functionally unused and omitted). -/
structure WorkspaceGraph where
  files : List File
  edges : List (ℕ × ℕ)
deriving DecidableEq, Repr

/-- `WorkspaceGraph::add_file` = `graph.add_node(file)`: appends a node
unconditionally and returns its fresh `NodeIndex` (= previous node count). -/
def WorkspaceGraph.add_file (g : WorkspaceGraph) (file : File) : WorkspaceGraph × ℕ :=
  ({ g with files := g.files ++ [file] }, g.files.length)

/-- `WorkspaceGraph::add_import` = `graph.add_edge(a, b, 1.0)`. -/
def WorkspaceGraph.add_import (g : WorkspaceGraph) (a b : ℕ) : WorkspaceGraph :=
  { g with edges := g.edges ++ [(a, b)] }

/-- `HashMap::insert` on the `file_to_node` map, modelled as an association list:
an existing binding for the key is overwritten, otherwise the binding is appended. -/
def hash_map_insert (m : List (String × ℕ)) (key : String) (val : ℕ) :
    List (String × ℕ) :=
  if m.any (fun p => p.1 = key) then
    m.map (fun p => if p.1 = key then (key, val) else p)
  else
    m ++ [(key, val)]

/-- `HashMap::get` on the `file_to_node` map. -/
def hash_map_get (m : List (String × ℕ)) (key : String) : Option ℕ :=
  (m.find? (fun p => p.1 = key)).map (fun p => p.2)

/-- First pass of `feed_workspace_graph_with_ts_project`
(`feeder/typescript.rs:266-279`): for every discovered file, canonicalize its path
(`canonicalize().unwrap_or_else(|_| clone)`, modelled by the total oracle `canon`),
insert a node with that canonical path — `add_file` is called unconditionally,
with no lookup in `file_to_node` first — and record canonical path ↦ `NodeIndex`.
Returns the graph and the `file_to_node` map. -/
def first_pass_from (canon : String → String)
    (acc : WorkspaceGraph × List (String × ℕ)) :
    List String → WorkspaceGraph × List (String × ℕ)
  | [] => acc
  | file_path :: rest =>
    let file_path_str := canon file_path
    let file := File.mk file_path_str
    let (g, node_index) := acc.1.add_file file
    first_pass_from canon (g, hash_map_insert acc.2 file_path_str node_index) rest

/-- The first pass, started from the empty graph and empty map. -/
def first_pass (canon : String → String) (typescript_files : List String) :
    WorkspaceGraph × List (String × ℕ) :=
  first_pass_from canon (⟨[], []⟩, []) typescript_files

/-- Second pass (`feeder/typescript.rs:281-305`): for every discovered file, parse
its imports (`parse` oracle; `none` models a parse error, which is logged and
skipped), look the file and each import up in `file_to_node`, and add one edge per
resolved list entry.  No nodes are ever added here. -/
def second_pass (canon : String → String) (parse : String → Option (List String))
    (typescript_files : List String) (st : WorkspaceGraph × List (String × ℕ)) :
    WorkspaceGraph :=
  typescript_files.foldl
    (fun g file_path =>
      let file_path_str := canon file_path
      match parse file_path with
      | some imports =>
        match hash_map_get st.2 file_path_str with
        | some current_node =>
          imports.foldl
            (fun g2 import_path =>
              match hash_map_get st.2 import_path with
              | some imported_node => g2.add_import current_node imported_node
              | none => g2)
            g
        | none => g
      | none => g)
    st.1

/-- `feed_workspace_graph_with_ts_project` (`feeder/typescript.rs:254-308`): the
two passes composed.  `typescript_files` stands for the `find_typescript_files`
result, `canon` for filesystem canonicalization, `parse` for
`parse_typescript_file`. -/
def feed_workspace_graph_with_ts_project (canon : String → String)
    (parse : String → Option (List String)) (typescript_files : List String) :
    WorkspaceGraph :=
  second_pass canon parse typescript_files (first_pass canon typescript_files)

/-! ### The import visitor (`ImportVisitor` in `feeder/typescript.rs`) -/

/-- The fragment of the oxc expression AST the visitor inspects. -/
inductive Expression where
  | identifier (name : String)
  | string_literal (value : String)
  | import_expression
  | call_expression (callee : Expression) (arguments : List Expression)
  | static_member_expression (object : Expression) (property : String)
  | computed_member_expression (object : Expression) (index : Expression)
  | private_field_expression (object : Expression) (field : String)

/-- The statements the visitor reacts to. -/
inductive Statement where
  | import_declaration (src : String)
  | export_all_declaration (src : String)
  | export_named_declaration (src : Option String)
  | expression_statement (expr : Expression)

/-- `ImportVisitor::add_import`: resolve the specifier; on success push the
canonicalized resolved path, otherwise push nothing.  The whole
resolve-then-canonicalize pipeline is the oracle `resolve`. -/
def add_import_resolved (resolve : String → Option String) (import_path : String) :
    List String :=
  match resolve import_path with
  | some canonical_path => [canonical_path]
  | none => []

/-- The imports collected while visiting one expression.  This fuses the mutually
recursive `visit_expression` / `visit_call_expression` / `visit_member_expression`
of `ImportVisitor` into one structural recursion:

* on a call expression, the dynamic-`import(...)` check and the bare
  `require(...)` check run (`visit_call_expression:125-147`), then the callee and
  every argument are visited (`:148-153`);
* on a static member expression whose object is a `require(...)` call, the
  specifier is recorded (`visit_member_expression:155-170`), then the object is
  visited (`:172-185`) — so the inner call is visited again afterwards;
* computed member / private field expressions just visit their children;
  identifiers, string literals and bare `import` tokens have none. -/
def collect_imports_expression (resolve : String → Option String) :
    Expression → List String
  | .identifier _ => []
  | .string_literal _ => []
  | .import_expression => []
  | .call_expression callee arguments =>
    (match callee, arguments.head? with
     | .import_expression, some (.string_literal str_lit) =>
       add_import_resolved resolve str_lit
     | _, _ => []) ++
    (match callee, arguments.head? with
     | .identifier ident, some (.string_literal str_lit) =>
       if ident = "require" then add_import_resolved resolve str_lit else []
     | _, _ => []) ++
    collect_imports_expression resolve callee ++
    (arguments.attach.flatMap fun a =>
      have ha : a.1 ∈ arguments := a.2
      collect_imports_expression resolve a.1)
  | .static_member_expression object _ =>
    (match object with
     | .call_expression (.identifier ident) arguments =>
       (match arguments.head? with
        | some (.string_literal str_lit) =>
          if ident = "require" then add_import_resolved resolve str_lit else []
        | _ => [])
     | _ => []) ++
    collect_imports_expression resolve object
  | .computed_member_expression object index =>
    collect_imports_expression resolve object ++
    collect_imports_expression resolve index
  | .private_field_expression object _ =>
    collect_imports_expression resolve object
termination_by e => sizeOf e
decreasing_by
  all_goals simp_wf
  all_goals try omega
  all_goals (have h := List.sizeOf_lt_of_mem ha; omega)

/-- The imports collected for one statement (`visit_import_declaration`,
`visit_export_all_declaration`, `visit_export_named_declaration`, and plain
expression statements). -/
def collect_imports_statement (resolve : String → Option String) :
    Statement → List String
  | .import_declaration src => add_import_resolved resolve src
  | .export_all_declaration src => add_import_resolved resolve src
  | .export_named_declaration (some src) => add_import_resolved resolve src
  | .export_named_declaration none => []
  | .expression_statement expr => collect_imports_expression resolve expr

/-- `visit_program`: the imports of a whole parsed file, in visit order. -/
def collect_imports_program (resolve : String → Option String)
    (program : List Statement) : List String :=
  program.flatMap (collect_imports_statement resolve)

/-! ### The relative-import resolver (`resolve_import_path` in
`feeder/typescript.rs:30-64`) -/

/-- A filesystem path, as its list of components. -/
abbrev FsPath := List String

/-- Split a character list at every occurrence of `c` (helper for the string
operations below; ASCII paths are modelled character by character). -/
def split_on_char (s : List Char) (c : Char) : List (List Char) :=
  match s with
  | [] => [[]]
  | d :: rest =>
    match split_on_char rest c with
    | [] => [[d]]
    | h :: t => if d = c then [] :: h :: t else (d :: h) :: t

/-- Join character lists with `c` between them (helper). -/
def intercalate_char (c : Char) : List (List Char) → List Char
  | [] => []
  | [l] => l
  | l :: rest => l ++ c :: intercalate_char c rest

/-- Rust `str::starts_with(char)`: is the first character `c`? -/
def starts_with_char (s : String) (c : Char) : Bool :=
  match s.data with
  | d :: _ => d = c
  | [] => false

/-- Rust `&s[1..]` on an ASCII string: drop the first character. -/
def drop_first_char (s : String) : String :=
  String.mk (s.data.drop 1)

/-- `Path::components` of a specifier string such as `"./b"` or `"../x/y"`:
split at `/`. -/
def path_components (s : String) : FsPath :=
  (split_on_char s.data '/').map String.mk

/-- `manual_resolve_path` (`feeder/typescript.rs:66-93`): purely lexical
resolution — `..` pops the last kept component (`Vec::pop`, a no-op when empty),
`.` is skipped, everything else is pushed. -/
def manual_resolve_path (path : FsPath) : FsPath :=
  path.foldl
    (fun components component =>
      if component = ".." then components.dropLast
      else if component = "." then components
      else components ++ [component])
    []

/-- `Path::with_extension` on a single file name: the part after the last `.` is
replaced when the name has one, otherwise the extension is appended. -/
def set_extension (file_name : String) (ext : String) : String :=
  let parts := split_on_char file_name.data '.'
  if 2 ≤ parts.length then
    String.mk (intercalate_char '.' parts.dropLast ++ '.' :: ext.data)
  else
    String.mk (file_name.data ++ '.' :: ext.data)

/-- `Path::with_extension` on a path: rewrite the last component. -/
def with_extension (path : FsPath) (ext : String) : FsPath :=
  if path.isEmpty then path
  else path.dropLast ++ [set_extension (path.getLastD "") ext]

/-- The first probe loop (`feeder/typescript.rs:44-50`): for each extension in
order, build `canonical_base.with_extension(&ext[1..])` and return it as soon as
it exists. -/
def try_extensions (fs_exists : FsPath → Bool) (canonical_base : FsPath) :
    List String → Option FsPath
  | [] => none
  | ext :: rest =>
    let with_ext := with_extension canonical_base (drop_first_char ext)
    if fs_exists with_ext then some with_ext
    else try_extensions fs_exists canonical_base rest

/-- The second probe loop (`feeder/typescript.rs:52-58`): for each extension in
order, build `canonical_base.join(format!("index{}", ext))` and return it as soon
as it exists. -/
def try_index_files (fs_exists : FsPath → Bool) (canonical_base : FsPath) :
    List String → Option FsPath
  | [] => none
  | ext :: rest =>
    let index_file := canonical_base ++ ["index" ++ ext]
    if fs_exists index_file then some index_file
    else try_index_files fs_exists canonical_base rest

/-- The extension list of both loops, `[".ts", ".tsx", ".js", ".jsx"]`. -/
def probe_extension_list : List String :=
  [".ts", ".tsx", ".js", ".jsx"]

/-- The base path the probes start from: `current_file_dir.join(import_path)`,
canonicalized through the filesystem when that succeeds
(`canonicalize` oracle), else resolved lexically (`feeder/typescript.rs:33-42`). -/
def canonical_base_of (canonicalize : FsPath → Option FsPath)
    (current_file_dir : FsPath) (import_path : String) : FsPath :=
  let resolved := current_file_dir ++ path_components import_path
  match canonicalize resolved with
  | some path => path
  | none => manual_resolve_path resolved

/-- `ImportVisitor::resolve_import_path` (`feeder/typescript.rs:30-64`): only
relative specifiers (starting with `.`) are handled; probe the four extensions,
then the four index files; absolute/bare specifiers resolve to `None`. -/
def resolve_import_path (fs_exists : FsPath → Bool)
    (canonicalize : FsPath → Option FsPath) (current_file_dir : FsPath)
    (import_path : String) : Option FsPath :=
  if starts_with_char import_path '.' then
    let canonical_base := canonical_base_of canonicalize current_file_dir import_path
    match try_extensions fs_exists canonical_base probe_extension_list with
    | some found => some found
    | none => try_index_files fs_exists canonical_base probe_extension_list
  else
    none

/-! ### Viewport state and zoom (`src/workspace_layout/view_state.rs`,
`src/workspace_layout/view.rs`) -/

/-- `ViewState` (`view_state.rs:5-18`): the reactive `f64` signals, modelled as
plain rationals (f64 arithmetic idealized as exact). -/
structure ViewState where
  zoom : ℚ
  translation_x : ℚ
  translation_y : ℚ
  drag_started : Bool
  drag_start_x : ℚ
  drag_start_y : ℚ
  mouse_position_x : ℚ
  mouse_position_y : ℚ
deriving DecidableEq, Repr

/-- `ViewState::new` (`view_state.rs:21-44`): zoom 1, everything else zeroed. -/
def ViewState.new : ViewState :=
  { zoom := 1
    translation_x := 0
    translation_y := 0
    drag_started := false
    drag_start_x := 0
    drag_start_y := 0
    mouse_position_x := 0
    mouse_position_y := 0 }

/-- `f64::clamp(self, min, max)`: `min` if below, `max` if above, else `self`. -/
def rust_clamp (x lo hi : ℚ) : ℚ :=
  if x < lo then lo else if hi < x then hi else x

/-- `WorkspaceLayout::zoom` (`view_state.rs:88-112`), acting on the view state:
clamp `old_zoom + factor` into `[0.1, 3.0]`; if the clamp absorbed the whole
delta, return unchanged; otherwise recompute the translation so the world point
under the mouse stays fixed, and store zoom and translation together. -/
def ViewState.zoomBy (s : ViewState) (factor : ℚ) : ViewState :=
  let old_zoom := s.zoom
  let new_zoom := rust_clamp (old_zoom + factor) 0.1 3.0
  if old_zoom = new_zoom then s
  else
    let world_x := (s.mouse_position_x - s.translation_x) / old_zoom
    let world_y := (s.mouse_position_y - s.translation_y) / old_zoom
    let new_tx := s.mouse_position_x - world_x * new_zoom
    let new_ty := s.mouse_position_y - world_y * new_zoom
    { s with zoom := new_zoom, translation_x := new_tx, translation_y := new_ty }

/-- The `PinchGesture` handler (`view.rs:57-75`): apply the zoom, then — when the
resulting zoom equals `3.5` and the pinch delta is positive — signal "open" for
the hovered file.  Returns the file name sent to `editor.open_file`, if any. -/
def pinch_gesture_opened_file (s : ViewState) (delta : ℚ)
    (hovered_file : Option String) : Option String :=
  let s_after := s.zoomBy delta
  if s_after.zoom = 3.5 ∧ 0 < delta then hovered_file else none

/-! ### Force-directed layout (`src/workspace_layout/calculate_positions.rs`),
with `f64` idealized as `ℝ` -/

/-- `Position` (`calculate_positions.rs:5-9`). -/
structure Position where
  x : ℝ
  y : ℝ

/-- `Position::distance` (`calculate_positions.rs:16-18`). -/
noncomputable def Position.distance (p other : Position) : ℝ :=
  Real.sqrt ((p.x - other.x) ^ 2 + (p.y - other.y) ^ 2)

/-- `ForceDirectedLayout` (`calculate_positions.rs:51-58`); the
`HashMap<NodeIndex, Position>` is modelled as a total function on indices. -/
structure ForceDirectedLayout where
  positions : ℕ → Position
  width : ℝ
  height : ℝ
  k : ℝ
  temperature : ℝ
  cooling_factor : ℝ

/-- `ForceDirectedLayout::new` (`calculate_positions.rs:60-91`): place node `i` of
`total` at angle `(i/total)·TAU` on the circle of radius `min(width,height)/2.5`
around the canvas centre; `k = sqrt(width·height/total)`, initial temperature
`width/10`, cooling factor `0.95`. -/
noncomputable def ForceDirectedLayout.new (g : WorkspaceGraph) (width height : ℝ) :
    ForceDirectedLayout :=
  let total := g.files.length
  let center_x := width / 2
  let center_y := height / 2
  let radius := min width height / 2.5
  { positions := fun i =>
      let angle := ((i : ℝ) / (total : ℝ)) * (2 * Real.pi)
      { x := center_x + radius * Real.cos angle
        y := center_y + radius * Real.sin angle }
    width := width
    height := height
    k := Real.sqrt (width * height / (total : ℝ))
    temperature := width / 10
    cooling_factor := 0.95 }

/-- `calculate_repulsive_force` (`calculate_positions.rs:93-98`): `1000` at
distance `0`, else `k²/distance`. -/
noncomputable def ForceDirectedLayout.calculate_repulsive_force
    (l : ForceDirectedLayout) (distance : ℝ) : ℝ :=
  if distance = 0 then 1000 else l.k * l.k / distance

/-- `calculate_attractive_force` (`calculate_positions.rs:100-102`). -/
noncomputable def ForceDirectedLayout.calculate_attractive_force
    (l : ForceDirectedLayout) (distance : ℝ) : ℝ :=
  distance * distance / l.k

/-- The index pairs visited by the nested repulsion loops
(`for i in 0..len { for j in (i+1)..len { .. } }`). -/
def node_pairs (n : ℕ) : List (ℕ × ℕ) :=
  (List.range n).flatMap fun i =>
    ((List.range n).filter fun j => i < j).map fun j => (i, j)

/-- One step of the repulsion loop (`calculate_positions.rs:109-133`) on the
displacement map: the whole update is guarded by `distance > 0.0`, so a
coincident pair leaves both displacements untouched. -/
noncomputable def repulsion_step (l : ForceDirectedLayout) (disp : ℕ → ℝ × ℝ)
    (pair : ℕ × ℕ) : ℕ → ℝ × ℝ :=
  let node_v := pair.1
  let node_u := pair.2
  let pos_v := l.positions node_v
  let pos_u := l.positions node_u
  let distance := pos_v.distance pos_u
  if 0 < distance then
    let repulsive_force := l.calculate_repulsive_force distance
    let dx := (pos_v.x - pos_u.x) / distance
    let dy := (pos_v.y - pos_u.y) / distance
    fun i =>
      if i = node_v then
        ((disp i).1 + dx * repulsive_force, (disp i).2 + dy * repulsive_force)
      else if i = node_u then
        ((disp i).1 - dx * repulsive_force, (disp i).2 - dy * repulsive_force)
      else disp i
  else disp

/-- One step of the attraction loop over the edge list
(`calculate_positions.rs:135-156`), likewise guarded by `distance > 0.0`. -/
noncomputable def attraction_step (l : ForceDirectedLayout) (disp : ℕ → ℝ × ℝ)
    (edge : ℕ × ℕ) : ℕ → ℝ × ℝ :=
  let node_u := edge.1
  let node_v := edge.2
  let pos_u := l.positions node_u
  let pos_v := l.positions node_v
  let distance := pos_u.distance pos_v
  if 0 < distance then
    let attractive_force := l.calculate_attractive_force distance
    let dx := (pos_v.x - pos_u.x) / distance
    let dy := (pos_v.y - pos_u.y) / distance
    fun i =>
      if i = node_u then
        ((disp i).1 + dx * attractive_force, (disp i).2 + dy * attractive_force)
      else if i = node_v then
        ((disp i).1 - dx * attractive_force, (disp i).2 - dy * attractive_force)
      else disp i
  else disp

/-- One step of the gravity / circular-spring loop
(`calculate_positions.rs:158-184`) for one node. -/
noncomputable def gravity_step (l : ForceDirectedLayout) (disp : ℕ → ℝ × ℝ)
    (node_idx : ℕ) : ℕ → ℝ × ℝ :=
  let center_x := l.width / 2
  let center_y := l.height / 2
  let gravity_strength := l.k * 0.02
  let circular_spring_strength := (0.01 : ℝ)
  let ideal_radius := min l.width l.height / 2.5
  let pos := l.positions node_idx
  let dx := center_x - pos.x
  let dy := center_y - pos.y
  let to_center_dx := pos.x - center_x
  let to_center_dy := pos.y - center_y
  let dist := Real.sqrt (to_center_dx * to_center_dx + to_center_dy * to_center_dy)
  fun i =>
    if i = node_idx then
      let base := ((disp i).1 + dx * gravity_strength,
                   (disp i).2 + dy * gravity_strength)
      if 0 < dist then
        let diff := dist - ideal_radius
        (base.1 - to_center_dx / dist * diff * circular_spring_strength,
         base.2 - to_center_dy / dist * diff * circular_spring_strength)
      else base
    else disp i

/-- The displacement map computed inside `iterate`
(`calculate_positions.rs:104-184`): zero-initialised for every node, then the
repulsion pair loop, the attraction edge loop, and the gravity loop. -/
noncomputable def displacements (l : ForceDirectedLayout) (g : WorkspaceGraph) :
    ℕ → ℝ × ℝ :=
  let init : ℕ → ℝ × ℝ := fun _ => (0, 0)
  let after_repulsion := (node_pairs g.files.length).foldl (repulsion_step l) init
  let after_attraction := g.edges.foldl (attraction_step l) after_repulsion
  (List.range g.files.length).foldl (gravity_step l) after_attraction

/-- `ForceDirectedLayout::iterate` (`calculate_positions.rs:104-203`): move every
node by its displacement, magnitude-limited by the temperature, clamp the result
into `[0,width] × [0,height]` (`pos.x.max(0.0).min(width)`), and cool down.  A
node with zero displacement keeps its position unchanged. -/
noncomputable def ForceDirectedLayout.iterate (l : ForceDirectedLayout)
    (g : WorkspaceGraph) : ForceDirectedLayout :=
  let disp := displacements l g
  let n := g.files.length
  { l with
    positions := fun node_idx =>
      if node_idx < n then
        let dx := (disp node_idx).1
        let dy := (disp node_idx).2
        let displacement_length := Real.sqrt (dx * dx + dy * dy)
        if 0 < displacement_length then
          let limited_displacement := min displacement_length l.temperature
          let normalized_dx := dx / displacement_length
          let normalized_dy := dy / displacement_length
          let px := (l.positions node_idx).x + normalized_dx * limited_displacement
          let py := (l.positions node_idx).y + normalized_dy * limited_displacement
          { x := min (max px 0) l.width, y := min (max py 0) l.height }
        else l.positions node_idx
      else l.positions node_idx
    temperature := l.temperature * l.cooling_factor }

/-- `ForceDirectedLayout::run` (`calculate_positions.rs:205-213`). -/
noncomputable def ForceDirectedLayout.run (l : ForceDirectedLayout)
    (g : WorkspaceGraph) : ℕ → ForceDirectedLayout
  | 0 => l
  | iterations + 1 => (l.iterate g).run g iterations

/-- `WorkspaceLayout::calculate_positions` (`calculate_positions.rs:22-48`): an
empty graph short-circuits to `[]`; otherwise run 100 iterations on the 800×600
canvas and return, per node, the file, its position, and the positions of the
opposite endpoints of its incident edges (petgraph `edges(node)` yields each
incident edge with `target()` the opposite endpoint; iteration order of the
incidence list is abstracted to edge-insertion order). -/
noncomputable def calculate_positions (g : WorkspaceGraph) :
    List (File × Position × List Position) :=
  if g.files.length = 0 then []
  else
    let layout := (ForceDirectedLayout.new g 800 600).run g 100
    (List.range g.files.length).map fun node_idx =>
      let connected := (g.edges.filter fun e =>
          e.1 = node_idx ∨ e.2 = node_idx).map fun e =>
        layout.positions (if e.1 = node_idx then e.2 else e.1)
      (g.files.getD node_idx ⟨""⟩, layout.positions node_idx, connected)

/-- A layout state with every node at the same point: the coincident-pair case of
the repulsion loop. -/
noncomputable def coincident_layout : ForceDirectedLayout :=
  { positions := fun _ => { x := 100, y := 100 }
    width := 800
    height := 600
    k := Real.sqrt (800 * 600 / 2)
    temperature := 80
    cooling_factor := 0.95 }

/-- The probe order asserted by the specification: the four extension rewrites,
then the four index files. -/
def probe_candidates (canonical_base : FsPath) : List FsPath :=
  [with_extension canonical_base "ts", with_extension canonical_base "tsx",
   with_extension canonical_base "js", with_extension canonical_base "jsx",
   canonical_base ++ ["index.ts"], canonical_base ++ ["index.tsx"],
   canonical_base ++ ["index.js"], canonical_base ++ ["index.jsx"]]

/-- A position inside the 800×600 canvas used by `calculate_positions`. -/
def in_canvas (p : Position) : Prop :=
  0 ≤ p.x ∧ p.x ≤ 800 ∧ 0 ≤ p.y ∧ p.y ≤ 600

/-! ## Theorems -/

/-! ### Zoom helpers -/

theorem rust_clamp_le_hi (x lo hi : ℚ) (h : lo ≤ hi) : rust_clamp x lo hi ≤ hi := by
  unfold rust_clamp
  split_ifs <;> linarith

theorem lo_le_rust_clamp (x lo hi : ℚ) (h : lo ≤ hi) : lo ≤ rust_clamp x lo hi := by
  unfold rust_clamp
  split_ifs <;> linarith

theorem zoomBy_zoom (s : ViewState) (factor : ℚ) :
    (s.zoomBy factor).zoom = rust_clamp (s.zoom + factor) 0.1 3.0 := by
  unfold ViewState.zoomBy
  dsimp only
  split_ifs with h
  · exact h
  · rfl

/-- C4.  The claim asserts a clamp to `[0.1, 10.0]`; the handler in
`view_state.rs:92` clamps to `[0.1, 3.0]`, so zooming from the initial zoom `1`
by `5` yields `3`, not `clamp(6, 0.1, 10) = 6`. -/
theorem c4_counterexample :
    (ViewState.new.zoomBy 5).zoom ≠ rust_clamp (ViewState.new.zoom + 5) 0.1 10 := by
  norm_num [ViewState.zoomBy, ViewState.new, rust_clamp]

/-- C4 (amended).  For every zoom event with delta `factor` and current zoom
`s.zoom`, the new zoom equals `clamp(s.zoom + factor, 0.1, 3.0)`; in particular
the new zoom always lies in `[0.1, 3.0]`, and the upper bound `3.0` is reachable
(zooming by `2` from the initial state attains it). -/
theorem c4_zoom_clamped_to_three (s : ViewState) (factor : ℚ) :
    (s.zoomBy factor).zoom = rust_clamp (s.zoom + factor) 0.1 3.0 ∧
    0.1 ≤ (s.zoomBy factor).zoom ∧ (s.zoomBy factor).zoom ≤ 3.0 ∧
    (ViewState.new.zoomBy 2).zoom = 3.0 := by
  refine ⟨zoomBy_zoom s factor, ?_, ?_,
    by norm_num [ViewState.zoomBy, ViewState.new, rust_clamp]⟩
  · rw [zoomBy_zoom]
    exact lo_le_rust_clamp _ _ _ (by norm_num)
  · rw [zoomBy_zoom]
    exact rust_clamp_le_hi _ _ _ (by norm_num)

/-- C5.  Zooming keeps the world point under the pointer fixed: with the mouse at
`(mx, my)`, the world coordinate `(mx - tx)/zoom` is the same before and after any
zoom event (exactly, in this idealized-arithmetic model), provided the current
zoom is nonzero. -/
theorem c5_world_point_invariant (s : ViewState) (factor : ℚ) (h : s.zoom ≠ 0) :
    (s.mouse_position_x - (s.zoomBy factor).translation_x) / (s.zoomBy factor).zoom
      = (s.mouse_position_x - s.translation_x) / s.zoom ∧
    (s.mouse_position_y - (s.zoomBy factor).translation_y) / (s.zoomBy factor).zoom
      = (s.mouse_position_y - s.translation_y) / s.zoom := by
  have hc : (0.1 : ℚ) ≤ rust_clamp (s.zoom + factor) 0.1 3.0 :=
    lo_le_rust_clamp _ _ _ (by norm_num)
  have hcne : rust_clamp (s.zoom + factor) 0.1 3.0 ≠ 0 := by linarith
  unfold ViewState.zoomBy
  dsimp only
  split_ifs with heq
  · exact ⟨rfl, rfl⟩
  · dsimp only
    constructor
    · field_simp
      ring
    · field_simp
      ring

/-- Witness for C5 at a concrete viewport state. -/
theorem c5_world_point_invariant_witness :
    (ViewState.mk 2 3 4 false 0 0 50 40 : ViewState).zoom ≠ 0 ∧
    (((ViewState.mk 2 3 4 false 0 0 50 40).mouse_position_x
        - ((ViewState.mk 2 3 4 false 0 0 50 40).zoomBy 1).translation_x)
          / ((ViewState.mk 2 3 4 false 0 0 50 40).zoomBy 1).zoom
      = ((ViewState.mk 2 3 4 false 0 0 50 40).mouse_position_x
        - (ViewState.mk 2 3 4 false 0 0 50 40).translation_x)
          / (ViewState.mk 2 3 4 false 0 0 50 40).zoom ∧
    ((ViewState.mk 2 3 4 false 0 0 50 40).mouse_position_y
        - ((ViewState.mk 2 3 4 false 0 0 50 40).zoomBy 1).translation_y)
          / ((ViewState.mk 2 3 4 false 0 0 50 40).zoomBy 1).zoom
      = ((ViewState.mk 2 3 4 false 0 0 50 40).mouse_position_y
        - (ViewState.mk 2 3 4 false 0 0 50 40).translation_y)
          / (ViewState.mk 2 3 4 false 0 0 50 40).zoom) :=
  ⟨by norm_num, c5_world_point_invariant (ViewState.mk 2 3 4 false 0 0 50 40) 1
    (by norm_num)⟩

/-- C10.  A zoom event whose clamped new zoom equals the current zoom returns
before touching any signal: zoom and both translations are unchanged. -/
theorem c10_noop_zoom_preserves_state (s : ViewState) (factor : ℚ)
    (h : rust_clamp (s.zoom + factor) 0.1 3.0 = s.zoom) :
    (s.zoomBy factor).zoom = s.zoom ∧
    (s.zoomBy factor).translation_x = s.translation_x ∧
    (s.zoomBy factor).translation_y = s.translation_y := by
  unfold ViewState.zoomBy
  dsimp only
  rw [if_pos h.symm]
  exact ⟨rfl, rfl, rfl⟩

/-- Witness for C10: at zoom `3`, a further positive delta is entirely absorbed
by the clamp and the state is untouched. -/
theorem c10_noop_zoom_preserves_state_witness :
    rust_clamp ((ViewState.new.zoomBy 5).zoom + 7) 0.1 3.0
        = (ViewState.new.zoomBy 5).zoom ∧
    (((ViewState.new.zoomBy 5).zoomBy 7).zoom = (ViewState.new.zoomBy 5).zoom ∧
    ((ViewState.new.zoomBy 5).zoomBy 7).translation_x
        = (ViewState.new.zoomBy 5).translation_x ∧
    ((ViewState.new.zoomBy 5).zoomBy 7).translation_y
        = (ViewState.new.zoomBy 5).translation_y) :=
  ⟨by norm_num [ViewState.zoomBy, ViewState.new, rust_clamp],
    c10_noop_zoom_preserves_state (ViewState.new.zoomBy 5) 7
      (by norm_num [ViewState.zoomBy, ViewState.new, rust_clamp])⟩

/-- C9.  The pinch handler opens the hovered file only when the post-zoom zoom
equals `3.5` (`view.rs:65`), but the zoom is clamped to at most `3.0`
(`view_state.rs:92`), so the pinch-triggered open path can never fire — even when
a pinch reaches the actual maximum zoom `3.0` with a node hovered (second
conjunct: delta `5/2` from the initial state attains the maximum). -/
theorem c9_pinch_open_never_fires :
    (∀ (s : ViewState) (delta : ℚ) (hovered_file : Option String),
        pinch_gesture_opened_file s delta hovered_file = none) ∧
    (ViewState.new.zoomBy (5 / 2)).zoom = 3.0 := by
  constructor
  · intro s delta hovered_file
    have h3 : (s.zoomBy delta).zoom ≤ 3.0 := by
      rw [zoomBy_zoom]
      exact rust_clamp_le_hi _ _ _ (by norm_num)
    have hne : (s.zoomBy delta).zoom ≠ 3.5 := by
      intro he
      rw [he] at h3
      norm_num at h3
    unfold pinch_gesture_opened_file
    exact if_neg (fun hc => hne hc.1)
  · norm_num [ViewState.zoomBy, ViewState.new, rust_clamp]

/-! ### Repulsion at distance zero (C2) -/

theorem coincident_distance_zero :
    Position.distance { x := 100, y := 100 } { x := 100, y := 100 } = 0 := by
  simp [Position.distance]

/-- C2.  The claim says a coincident pair receives a repulsive force of magnitude
`1000`; in fact the repulsion loop of `iterate` is guarded by `distance > 0.0`
(`calculate_positions.rs:118`), so a coincident pair is skipped outright: the
loop body leaves the displacement map untouched (here for two nodes both at
`(100, 100)`), applying no force at all. -/
theorem c2_counterexample :
    Position.distance (coincident_layout.positions 0) (coincident_layout.positions 1)
        = 0 ∧
    repulsion_step coincident_layout (fun _ => (0, 0)) (0, 1) = fun _ => (0, 0) := by
  constructor
  · exact coincident_distance_zero
  · unfold repulsion_step
    dsimp only
    rw [show (coincident_layout.positions 0).distance (coincident_layout.positions 1)
          = 0 from coincident_distance_zero]
    simp

/-- C2 (amended).  `calculate_repulsive_force` does return the fixed magnitude
`1000` at distance `0`, but `iterate` never applies it: its repulsion loop skips
any pair at distance `0`, leaving both displacements unchanged — which is also
why the `k²/d` division is only ever evaluated with `d > 0`. -/
theorem c2_coincident_pair_gets_no_repulsion (l : ForceDirectedLayout)
    (disp : ℕ → ℝ × ℝ) (pair : ℕ × ℕ)
    (h : (l.positions pair.1).distance (l.positions pair.2) = 0) :
    repulsion_step l disp pair = disp ∧
    l.calculate_repulsive_force 0 = 1000 := by
  constructor
  · unfold repulsion_step
    dsimp only
    rw [h]
    simp
  · unfold ForceDirectedLayout.calculate_repulsive_force
    simp

/-- Witness for C2 (amended) at the concrete coincident state. -/
theorem c2_coincident_pair_gets_no_repulsion_witness :
    Position.distance (coincident_layout.positions (0, 1).1)
        (coincident_layout.positions (0, 1).2) = 0 ∧
    (repulsion_step coincident_layout (fun _ => (1, 2)) (0, 1) = (fun _ => (1, 2)) ∧
    coincident_layout.calculate_repulsive_force 0 = 1000) :=
  ⟨coincident_distance_zero,
    c2_coincident_pair_gets_no_repulsion coincident_layout (fun _ => (1, 2)) (0, 1)
      coincident_distance_zero⟩

/-! ### Canvas containment (C6, C7) -/

theorem in_canvas_new (g : WorkspaceGraph) (i : ℕ) :
    in_canvas ((ForceDirectedLayout.new g 800 600).positions i) := by
  unfold ForceDirectedLayout.new in_canvas
  dsimp only
  have hmin : min (800 : ℝ) 600 = 600 := by norm_num
  rw [hmin]
  set angle := ((i : ℝ) / (g.files.length : ℝ)) * (2 * Real.pi) with hangle
  have hc1 := Real.cos_le_one angle
  have hc2 := Real.neg_one_le_cos angle
  have hs1 := Real.sin_le_one angle
  have hs2 := Real.neg_one_le_sin angle
  refine ⟨by nlinarith, by nlinarith, by nlinarith, by nlinarith⟩

theorem iterate_in_canvas (l : ForceDirectedLayout) (g : WorkspaceGraph)
    (hw : l.width = 800) (hh : l.height = 600)
    (hpos : ∀ i, in_canvas (l.positions i)) :
    ∀ i, in_canvas ((l.iterate g).positions i) := by
  intro i
  unfold ForceDirectedLayout.iterate
  dsimp only
  split_ifs with h1 h2
  · rw [hw, hh]
    refine ⟨?_, ?_, ?_, ?_⟩
    · exact le_min (le_max_right _ _) (by norm_num)
    · exact min_le_right _ _
    · exact le_min (le_max_right _ _) (by norm_num)
    · exact min_le_right _ _
  · exact hpos i
  · exact hpos i

theorem run_in_canvas (g : WorkspaceGraph) :
    ∀ (iterations : ℕ) (l : ForceDirectedLayout), l.width = 800 → l.height = 600 →
      (∀ i, in_canvas (l.positions i)) →
      ∀ i, in_canvas ((l.run g iterations).positions i) := by
  intro iterations
  induction iterations with
  | zero => intro l _ _ hpos i; exact hpos i
  | succ m ih =>
    intro l hw hh hpos i
    have hstep := iterate_in_canvas l g hw hh hpos
    exact ih (l.iterate g) hw hh hstep i

/-- C6.  For every graph with at least one node, every position produced by
`calculate_positions` — each node's own position and every connected-neighbour
position it reports — lies in `[0, 800] × [0, 600]`: the integration step clamps
every moved position into the canvas and never moves an unmoved one out. -/
theorem c6_layout_positions_in_canvas (g : WorkspaceGraph)
    (h : 1 ≤ g.files.length) :
    ∀ entry ∈ calculate_positions g,
      in_canvas entry.2.1 ∧ ∀ p ∈ entry.2.2, in_canvas p := by
  intro entry hmem
  unfold calculate_positions at hmem
  rw [if_neg (by omega)] at hmem
  have hrun := run_in_canvas g 100 (ForceDirectedLayout.new g 800 600) rfl rfl
    (in_canvas_new g)
  generalize hL : (ForceDirectedLayout.new g 800 600).run g 100 = L at hmem hrun
  simp only [List.mem_map] at hmem
  obtain ⟨node_idx, _, rfl⟩ := hmem
  refine ⟨hrun node_idx, ?_⟩
  intro p hp
  simp only [List.mem_map] at hp
  obtain ⟨e, _, rfl⟩ := hp
  exact hrun _

/-- Witness for C6 on the one-node graph. -/
theorem c6_layout_positions_in_canvas_witness :
    1 ≤ (WorkspaceGraph.mk [File.mk "a"] []).files.length ∧
    ∀ entry ∈ calculate_positions (WorkspaceGraph.mk [File.mk "a"] []),
      in_canvas entry.2.1 ∧ ∀ p ∈ entry.2.2, in_canvas p :=
  ⟨by decide, c6_layout_positions_in_canvas (WorkspaceGraph.mk [File.mk "a"] [])
    (by decide)⟩

/-- C7.  A graph with zero nodes short-circuits `calculate_positions` to the
empty list before any layout arithmetic runs. -/
theorem c7_empty_graph_yields_empty_layout (g : WorkspaceGraph)
    (h : g.files.length = 0) : calculate_positions g = [] := by
  unfold calculate_positions
  rw [if_pos h]

/-- Witness for C7 on the empty graph. -/
theorem c7_empty_graph_yields_empty_layout_witness :
    (WorkspaceGraph.mk [] []).files.length = 0 ∧
    calculate_positions (WorkspaceGraph.mk [] []) = [] :=
  ⟨rfl, c7_empty_graph_yields_empty_layout (WorkspaceGraph.mk [] []) rfl⟩

/-! ### Node insertion in the feeder (C1) -/

theorem foldl_files_invariant {α : Type} (f : WorkspaceGraph → α → WorkspaceGraph)
    (hf : ∀ g a, (f g a).files = g.files) :
    ∀ (l : List α) (g : WorkspaceGraph), (l.foldl f g).files = g.files := by
  intro l
  induction l with
  | nil => intro g; rfl
  | cons a t ih =>
    intro g
    rw [List.foldl_cons, ih, hf]

theorem second_pass_files (canon : String → String)
    (parse : String → Option (List String)) (typescript_files : List String)
    (st : WorkspaceGraph × List (String × ℕ)) :
    (second_pass canon parse typescript_files st).files = st.1.files := by
  unfold second_pass
  apply foldl_files_invariant
  intro g a
  dsimp only
  rcases parse a with _ | imports
  · rfl
  · rcases hash_map_get st.2 (canon a) with _ | current_node
    · rfl
    · exact foldl_files_invariant _
        (fun g2 ip => by rcases hash_map_get st.2 ip with _ | j <;> rfl) imports g

theorem first_pass_from_files (canon : String → String) :
    ∀ (typescript_files : List String) (acc : WorkspaceGraph × List (String × ℕ)),
      (first_pass_from canon acc typescript_files).1.files
        = acc.1.files ++ typescript_files.map (fun f => File.mk (canon f)) := by
  intro typescript_files
  induction typescript_files with
  | nil => intro acc; simp [first_pass_from]
  | cons a t ih =>
    intro acc
    rw [first_pass_from]
    dsimp only
    rw [ih]
    simp [WorkspaceGraph.add_file]

/-- C1.  Two discovered files that canonicalize to the same path do NOT share a
node: pass 1 calls `add_file` unconditionally (`feeder/typescript.rs:277`), so
the graph ends up with two nodes carrying the same canonical path `"c"`. -/
theorem c1_counterexample :
    ((first_pass (fun _ => "c") ["a", "b"]).1.files.filter
        (fun file => file.name = "c")).length = 2 := by
  decide

/-- C1 (amended).  The builder inserts exactly one node per discovered file — in
discovery order, carrying the file's canonical path — so discovered files whose
paths canonicalize to the same string yield duplicate nodes (the `file_to_node`
map then retains only the last `NodeId`).  Pass 2 (repeated import references)
only reuses mapped `NodeId`s and never inserts a node. -/
theorem c1_one_node_per_discovered_file (canon : String → String)
    (parse : String → Option (List String)) (typescript_files : List String) :
    (first_pass canon typescript_files).1.files
        = typescript_files.map (fun f => File.mk (canon f)) ∧
    (feed_workspace_graph_with_ts_project canon parse typescript_files).files
        = typescript_files.map (fun f => File.mk (canon f)) := by
  have h1 : (first_pass canon typescript_files).1.files
      = typescript_files.map (fun f => File.mk (canon f)) := by
    unfold first_pass
    rw [first_pass_from_files]
    rfl
  refine ⟨h1, ?_⟩
  unfold feed_workspace_graph_with_ts_project
  rw [second_pass_files]
  exact h1

/-! ### One import per handler match (C3) -/

/-- C3.  A single statement `require("./x").default` is recorded twice: once by
the member-expression handler and once more when the visitor descends into the
call object and the call-expression handler matches again — so the feeder adds
two edges for this one statement (claim: one). -/
theorem c3_counterexample :
    collect_imports_program
        (fun spec => if spec = "./x" then some "/proj/x.ts" else none)
        [Statement.expression_statement
          (Expression.static_member_expression
            (Expression.call_expression (Expression.identifier "require")
              [Expression.string_literal "./x"])
            "default")]
      = ["/proj/x.ts", "/proj/x.ts"] ∧
    (feed_workspace_graph_with_ts_project (fun s => s)
        (fun file_path =>
          if file_path = "/proj/a.ts" then
            some (collect_imports_program
              (fun spec => if spec = "./x" then some "/proj/x.ts" else none)
              [Statement.expression_statement
                (Expression.static_member_expression
                  (Expression.call_expression (Expression.identifier "require")
                    [Expression.string_literal "./x"])
                  "default")])
          else some [])
        ["/proj/a.ts", "/proj/x.ts"]).edges = [(0, 1), (0, 1)] := by
  have hv : collect_imports_program
      (fun spec => if spec = "./x" then some "/proj/x.ts" else none)
      [Statement.expression_statement
        (Expression.static_member_expression
          (Expression.call_expression (Expression.identifier "require")
            [Expression.string_literal "./x"])
          "default")]
      = ["/proj/x.ts", "/proj/x.ts"] := by
    simp [collect_imports_program, collect_imports_statement,
      collect_imports_expression, add_import_resolved]
  refine ⟨hv, ?_⟩
  simp only [hv]
  decide

/-- C3 (amended).  Each matched handler contributes exactly one import (hence
one edge when it resolves to a discovered file): import declarations, `export *`
and `export { } from`, bare `require("...")` calls, and dynamic `import("...")`
calls each yield one list entry — but a `require("...").member` expression is
matched by both the member-expression handler and, when the visitor descends
into its object, the call-expression handler, yielding two entries. -/
theorem c3_one_import_per_handler_match (resolve : String → Option String)
    (spec canonical : String) (h : resolve spec = some canonical) :
    collect_imports_statement resolve (.import_declaration spec) = [canonical] ∧
    collect_imports_statement resolve (.export_all_declaration spec) = [canonical] ∧
    collect_imports_statement resolve
        (.export_named_declaration (some spec)) = [canonical] ∧
    collect_imports_statement resolve
        (.expression_statement (.call_expression (.identifier "require")
          [.string_literal spec])) = [canonical] ∧
    collect_imports_statement resolve
        (.expression_statement (.call_expression .import_expression
          [.string_literal spec])) = [canonical] ∧
    collect_imports_statement resolve
        (.expression_statement (.static_member_expression
          (.call_expression (.identifier "require") [.string_literal spec])
          "default")) = [canonical, canonical] := by
  simp [collect_imports_statement, collect_imports_expression,
    add_import_resolved, h]

/-- Witness for C3 (amended) at a concrete resolver. -/
theorem c3_one_import_per_handler_match_witness :
    (fun spec => if spec = "./x" then some "X" else none) "./x"
        = some "X" ∧
    (collect_imports_statement
        (fun spec => if spec = "./x" then some "X" else none)
        (.import_declaration "./x") = ["X"] ∧
    collect_imports_statement
        (fun spec => if spec = "./x" then some "X" else none)
        (.export_all_declaration "./x") = ["X"] ∧
    collect_imports_statement
        (fun spec => if spec = "./x" then some "X" else none)
        (.export_named_declaration (some "./x")) = ["X"] ∧
    collect_imports_statement
        (fun spec => if spec = "./x" then some "X" else none)
        (.expression_statement (.call_expression (.identifier "require")
          [.string_literal "./x"])) = ["X"] ∧
    collect_imports_statement
        (fun spec => if spec = "./x" then some "X" else none)
        (.expression_statement (.call_expression .import_expression
          [.string_literal "./x"])) = ["X"] ∧
    collect_imports_statement
        (fun spec => if spec = "./x" then some "X" else none)
        (.expression_statement (.static_member_expression
          (.call_expression (.identifier "require") [.string_literal "./x"])
          "default")) = ["X", "X"]) :=
  ⟨by simp, c3_one_import_per_handler_match
    (fun spec => if spec = "./x" then some "X" else none) "./x" "X" (by simp)⟩

/-! ### Resolver probe order (C8) -/

theorem try_extensions_eq_find (fs_exists : FsPath → Bool)
    (canonical_base : FsPath) :
    ∀ exts : List String,
      try_extensions fs_exists canonical_base exts
        = (exts.map fun ext =>
            with_extension canonical_base (drop_first_char ext)).find? fs_exists := by
  intro exts
  induction exts with
  | nil => rfl
  | cons e t ih =>
    rw [try_extensions]
    cases hfa : fs_exists (with_extension canonical_base (drop_first_char e)) with
    | true => simp [hfa, List.find?_cons]
    | false => simp [hfa, List.find?_cons, ih]

theorem try_index_files_eq_find (fs_exists : FsPath → Bool)
    (canonical_base : FsPath) :
    ∀ exts : List String,
      try_index_files fs_exists canonical_base exts
        = (exts.map fun ext => canonical_base ++ ["index" ++ ext]).find? fs_exists := by
  intro exts
  induction exts with
  | nil => rfl
  | cons e t ih =>
    rw [try_index_files]
    cases hfa : fs_exists (canonical_base ++ ["index" ++ e]) with
    | true => simp [hfa, List.find?_cons]
    | false => simp [hfa, List.find?_cons, ih]

/-- C8.  For every relative specifier the resolver probes, in this exact order,
`<base>.ts`, `<base>.tsx`, `<base>.js`, `<base>.jsx` (extension replaced), then
`<base>/index.ts`, `/index.tsx`, `/index.js`, `/index.jsx`, returning the first
existing candidate; concretely, `"./b"` from `/proj` finds `/proj/b.tsx` when
only that file exists, and resolves to `none` when no candidate exists. -/
theorem c8_resolver_probe_order (fs_exists : FsPath → Bool)
    (canonicalize : FsPath → Option FsPath) (current_file_dir : FsPath)
    (import_path : String) (h : starts_with_char import_path '.' = true) :
    resolve_import_path fs_exists canonicalize current_file_dir import_path
      = (probe_candidates
          (canonical_base_of canonicalize current_file_dir import_path)).find?
            fs_exists ∧
    resolve_import_path (fun p => p == ["proj", "b.tsx"])
        (fun p => if p == ["proj", "b.tsx"] then some p else none)
        ["proj"] "./b" = some ["proj", "b.tsx"] ∧
    resolve_import_path (fun _ => false) (fun _ => none) ["proj"] "./b" = none := by
  refine ⟨?_, by decide, by decide⟩
  unfold resolve_import_path
  rw [if_pos h]
  dsimp only
  rw [try_extensions_eq_find, try_index_files_eq_find]
  set base := canonical_base_of canonicalize current_file_dir import_path with hbase
  have e1 : drop_first_char ".ts" = "ts" := by decide
  have e2 : drop_first_char ".tsx" = "tsx" := by decide
  have e3 : drop_first_char ".js" = "js" := by decide
  have e4 : drop_first_char ".jsx" = "jsx" := by decide
  have i1 : "index" ++ ".ts" = "index.ts" := by decide
  have i2 : "index" ++ ".tsx" = "index.tsx" := by decide
  have i3 : "index" ++ ".js" = "index.js" := by decide
  have i4 : "index" ++ ".jsx" = "index.jsx" := by decide
  simp only [probe_extension_list, List.map_cons, List.map_nil,
    e1, e2, e3, e4, i1, i2, i3, i4]
  have hsplit : probe_candidates base
      = [with_extension base "ts", with_extension base "tsx",
         with_extension base "js", with_extension base "jsx"]
        ++ [base ++ ["index.ts"], base ++ ["index.tsx"],
            base ++ ["index.js"], base ++ ["index.jsx"]] := rfl
  rw [hsplit, List.find?_append]
  cases hf : List.find? fs_exists
      [with_extension base "ts", with_extension base "tsx",
       with_extension base "js", with_extension base "jsx"] with
  | none => simp [hf]
  | some found => simp [hf]

/-- Witness for C8 at the concrete one-file filesystem. -/
theorem c8_resolver_probe_order_witness :
    starts_with_char "./b" '.' = true ∧
    (resolve_import_path (fun p => p == ["proj", "b.tsx"])
        (fun p => if p == ["proj", "b.tsx"] then some p else none)
        ["proj"] "./b"
      = (probe_candidates
          (canonical_base_of
            (fun p => if p == ["proj", "b.tsx"] then some p else none)
            ["proj"] "./b")).find? (fun p => p == ["proj", "b.tsx"]) ∧
    resolve_import_path (fun p => p == ["proj", "b.tsx"])
        (fun p => if p == ["proj", "b.tsx"] then some p else none)
        ["proj"] "./b" = some ["proj", "b.tsx"] ∧
    resolve_import_path (fun _ => false) (fun _ => none) ["proj"] "./b" = none) :=
  ⟨by decide, c8_resolver_probe_order (fun p => p == ["proj", "b.tsx"])
    (fun p => if p == ["proj", "b.tsx"] then some p else none)
    ["proj"] "./b" (by decide)⟩
